import Mathlib

/-! CandleDecoration: DS3231 driver, colour mixing and the date/time value type

A shallow embedding of `src/DS3231.cpp`, `src/DS3231.hpp`, `src/Color.hpp` and of the
interface declared in `src/DateTime.hpp`.

Conventions.
* `uint8_t`, `uint16_t` and `uint32_t` values are natural numbers; a conversion to one of
  these types is an explicit `% 256`, `% 65536` or `% 4294967296`.
* Arithmetic on `uint16_t` operands depends on the width of the C `int` of the target: with
  an `int` wider than 16 bits the operands are promoted to `int` and the (small, non-negative)
  result is exact, with a 16-bit `int` the arithmetic is unsigned and wraps at `65536`.
  Functions containing such arithmetic take the width as the parameter `intBits`, and every
  statement about them is proved for all widths.
* The Arduino `Wire` library and the chip behind it are not part of the repository. They are
  modelled as a register file in which a read returns the byte last written, together with a
  chronological log of the register writes.
-/

namespace lr

/-! ## `lr::DateTime`: data members, accessors and the unchecked constructor -/

/-- The private data members of the class `DateTime` (`_year`, `_month`, `_day`, `_hour`,
`_minute`, `_second`, `_dayOfWeek`). -/
structure DateTime where
  year : Nat
  month : Nat
  day : Nat
  hour : Nat
  minute : Nat
  second : Nat
  dayOfWeek : Nat
deriving DecidableEq

namespace DateTime

/-- Modelled from the spec: the body of `DateTime::fromUncheckedValues` is in the missing
`DateTime.cpp`; it "stores fields verbatim, no validation, no recomputation of dayOfWeek". -/
def fromUncheckedValues (year month day hour minute second dayOfWeek : Nat) : DateTime :=
  { year := year, month := month, day := day, hour := hour, minute := minute,
    second := second, dayOfWeek := dayOfWeek }

/-- Modelled from the spec: the accessor `getYear` of the missing `DateTime.cpp` returns the
stored year. -/
def getYear (d : DateTime) : Nat := d.year

/-- Modelled from the spec: the accessor `getMonth` of the missing `DateTime.cpp` returns the
stored month. -/
def getMonth (d : DateTime) : Nat := d.month

/-- Modelled from the spec: the accessor `getDay` of the missing `DateTime.cpp` returns the
stored day. -/
def getDay (d : DateTime) : Nat := d.day

/-- Modelled from the spec: the accessor `getDayOfWeek` of the missing `DateTime.cpp` returns
the stored day of the week. -/
def getDayOfWeek (d : DateTime) : Nat := d.dayOfWeek

/-- Modelled from the spec: the accessor `getHour` of the missing `DateTime.cpp` returns the
stored hour. -/
def getHour (d : DateTime) : Nat := d.hour

/-- Modelled from the spec: the accessor `getMinute` of the missing `DateTime.cpp` returns the
stored minute. -/
def getMinute (d : DateTime) : Nat := d.minute

/-- Modelled from the spec: the accessor `getSecond` of the missing `DateTime.cpp` returns the
stored second. -/
def getSecond (d : DateTime) : Nat := d.second

end DateTime

/-! ## `lr::DateTime`: calendar arithmetic

The file `DateTime.cpp` is not among the sources; only the class declaration and its
documentation (`DateTime.hpp`) are. The definitions of this section follow the specification
of the calendar engine. Its anchor, the day of the week of 2000-01-01, is left open by the
specification (the two conventions documented in `DateTime.hpp` disagree) and is the
parameter `epochDayOfWeek` of the definitions that need it. -/

/-- Modelled from the spec: the Arduino helper `constrain(x, lo, hi)` used by the missing
`DateTime.cpp` to "constrain each field into its valid range" (clamping). -/
def constrain (x lo hi : Nat) : Nat :=
  if x < lo then lo else if hi < x then hi else x

/-- Modelled from the spec: the leap-year rule of the missing `DateTime.cpp`, "divisible by 4,
and (not divisible by 100, or divisible by 400)". -/
def isLeapYear (year : Nat) : Bool :=
  year % 4 == 0 && (year % 100 != 0 || year % 400 == 0)

/-- Modelled from the spec: days of a year in the missing `DateTime.cpp`, "366 if that year is
a leap year, else 365". -/
def daysInYear (year : Nat) : Nat :=
  if isLeapYear year then 366 else 365

/-- Modelled from the spec: days of a month in the missing `DateTime.cpp`, "the standard
month-length table, adjusted for February in a leap year". No month other than 1..12 has
days. -/
def daysInMonth (year month : Nat) : Nat :=
  match month with
  | 1 => 31
  | 2 => if isLeapYear year then 29 else 28
  | 3 => 31
  | 4 => 30
  | 5 => 31
  | 6 => 30
  | 7 => 31
  | 8 => 31
  | 9 => 30
  | 10 => 31
  | 11 => 30
  | 12 => 31
  | _ => 0

/-- Modelled from the spec: the accumulation loops of the missing `DateTime.cpp`: the sum of
`len i` over `count` consecutive units (years or months) starting with unit `first`. -/
def spanDays (len : Nat → Nat) (first : Nat) : Nat → Nat
  | 0 => 0
  | count + 1 => len first + spanDays len (first + 1) count

/-- Modelled from the spec: the decoding loops of the missing `DateTime.cpp`, "peel off whole
years, then months": while the remaining days cover the whole unit `index`, subtract its
length and move to the next unit. The result is the unit reached and the days left in it.
Every round of the loop consumes one unit of `fuel`. -/
def peel (len : Nat → Nat) : Nat → Nat → Nat → Nat × Nat
  | 0, index, days => (index, days)
  | fuel + 1, index, days =>
    if len index ≤ days then peel len fuel (index + 1) (days - len index) else (index, days)

/-- Modelled from the spec: whole days elapsed from 2000-01-01 to the given date in the missing
`DateTime.cpp`: the days of every full year from 2000, plus the days of the full months of the
year, plus `day - 1`. -/
def daysSince2000 (year month day : Nat) : Nat :=
  spanDays daysInYear 2000 (year - 2000) + spanDays (daysInMonth year) 1 (month - 1) + (day - 1)

/-- Modelled from the spec: the one routine of the missing `DateTime.cpp` that derives the day
of the week: "day-of-week at epoch plus elapsed whole days, mod 7". -/
def calculateDayOfWeek (epochDayOfWeek year month day : Nat) : Nat :=
  (epochDayOfWeek + daysSince2000 year month day) % 7

/-- Modelled from the spec: the checked constructor `DateTime::DateTime(year, month, day, hour,
minute, second)` of the missing `DateTime.cpp`: "All values are constrained to valid values,
day of week is calculated." A constructor has no name of its own; it is called `fromValues`
here, next to `fromUncheckedValues`. -/
def DateTime.fromValues (epochDayOfWeek year month day hour minute second : Nat) : DateTime :=
  let year := constrain year 2000 9999
  let month := constrain month 1 12
  let day := constrain day 1 (daysInMonth year month)
  { year := year, month := month, day := day
    hour := constrain hour 0 23, minute := constrain minute 0 59
    second := constrain second 0 59
    dayOfWeek := calculateDayOfWeek epochDayOfWeek year month day }

/-- Modelled from the spec: `DateTime::operator<` of the missing `DateTime.cpp`, the
"lexicographic comparison" by `(year, month, day, hour, minute, second)`; the day of the week
is not part of the key. -/
def DateTime.lt (a b : DateTime) : Bool :=
  if a.year ≠ b.year then decide (a.year < b.year)
  else if a.month ≠ b.month then decide (a.month < b.month)
  else if a.day ≠ b.day then decide (a.day < b.day)
  else if a.hour ≠ b.hour then decide (a.hour < b.hour)
  else if a.minute ≠ b.minute then decide (a.minute < b.minute)
  else decide (a.second < b.second)

/-- Modelled from the spec: `DateTime::toSecondsSince2000` of the missing `DateTime.cpp`: the
elapsed whole days "multiplied by 86400, plus hour*3600 + minute*60 + second", returned as
`uint32_t`. -/
def DateTime.toSecondsSince2000 (d : DateTime) : Nat :=
  (daysSince2000 d.year d.month d.day * 86400 + d.hour * 3600 + d.minute * 60 + d.second)
    % 4294967296

/-- Modelled from the spec: `DateTime::fromSecondsSince2000` of the missing `DateTime.cpp`:
"peel off whole leap-year-aware years, then months, then days, then time-of-day components, in
that order", the day of the week being that of the epoch plus the elapsed whole days, mod 7.
The year loop gets one round per elapsed day and the month loop twelve rounds, which is more
than either can use. -/
def DateTime.fromSecondsSince2000 (epochDayOfWeek seconds : Nat) : DateTime :=
  let days := seconds / 86400
  let rest := seconds % 86400
  let (year, dayOfYear) := peel daysInYear days 2000 days
  let (month, dayOfMonth) := peel (daysInMonth year) 12 1 dayOfYear
  { year := year, month := month, day := dayOfMonth + 1
    hour := rest / 3600, minute := rest % 3600 / 60, second := rest % 60
    dayOfWeek := (epochDayOfWeek + days) % 7 }

/-- The invariant of the checked-construction path: every field within its bounds, the day
valid for the month and year, the day of the week consistent with the date. -/
def DateTime.valid (epochDayOfWeek : Nat) (d : DateTime) : Prop :=
  2000 ≤ d.year ∧ d.year ≤ 9999 ∧ 1 ≤ d.month ∧ d.month ≤ 12 ∧
  1 ≤ d.day ∧ d.day ≤ daysInMonth d.year d.month ∧
  d.hour ≤ 23 ∧ d.minute ≤ 59 ∧ d.second ≤ 59 ∧
  d.dayOfWeek = calculateDayOfWeek epochDayOfWeek d.year d.month d.day

instance (epochDayOfWeek : Nat) (d : DateTime) : Decidable (DateTime.valid epochDayOfWeek d) := by
  unfold DateTime.valid
  infer_instance

/-! ## C integer arithmetic helpers -/

/-- Result of an arithmetic operation on `uint16_t` operands whose exact value is `x`:
exact when `int` is wider than 16 bits (integer promotion), reduced modulo `65536` when `int`
has 16 bits (unsigned arithmetic). -/
def arith16 (intBits : Nat) (x : Nat) : Nat :=
  if 16 < intBits then x else x % 65536

/-- The value of `(~m)` restricted to the low eight bits, for a `uint8_t` operand `m`. -/
def not8 (m : Nat) : Nat := 255 - m % 256

/-! ## `lr::DS3231`: the register driver -/

namespace DS3231

/-- The `enum class Register`. -/
inductive Register where
  | Seconds | Minutes | Hours | DayOfWeek | Day | MonthCentury | Year
  | Alarm1Seconds | Alarm1Minutes | Alarm1Hours | Alarm1DayDate
  | Alarm2Minutes | Alarm2Hours | Alarm2DayDate
  | Control | Status | AgingOffset | TemperatureHigh | TemperatureLow
deriving DecidableEq

/-- The `uint8_t` value of each enumerator of `Register`. -/
def Register.toNat : Register → Nat
  | .Seconds => 0x00 | .Minutes => 0x01 | .Hours => 0x02 | .DayOfWeek => 0x03
  | .Day => 0x04 | .MonthCentury => 0x05 | .Year => 0x06
  | .Alarm1Seconds => 0x07 | .Alarm1Minutes => 0x08 | .Alarm1Hours => 0x09
  | .Alarm1DayDate => 0x0a | .Alarm2Minutes => 0x0b | .Alarm2Hours => 0x0c
  | .Alarm2DayDate => 0x0d | .Control => 0x0e | .Status => 0x0f
  | .AgingOffset => 0x10 | .TemperatureHigh => 0x11 | .TemperatureLow => 0x12

/-- The chip as seen through `Wire`: the content of the register at each address and the
log of the register writes performed so far, oldest first, as (address, value) pairs. -/
structure Chip where
  regs : Nat → Nat
  writes : List (Nat × Nat)

/-- One byte written to the register at `addr`. -/
def Chip.write (c : Chip) (addr value : Nat) : Chip :=
  { regs := fun a => if a = addr then value else c.regs a
    writes := c.writes ++ [(addr, value)] }

/-- A block of bytes written in one transmission: the chip stores them in consecutive
registers starting at `addr`. -/
def Chip.writeBlock (c : Chip) : Nat → List Nat → Chip
  | _, [] => c
  | addr, v :: vs => (c.write addr v).writeBlock (addr + 1) vs

/-- The state the driver works on: the file-static `gYearBase` and the chip. -/
structure Driver where
  gYearBase : Nat
  chip : Chip

/-- The file-local `struct DateTimeRegister`: seven consecutive bytes. -/
structure DateTimeRegister where
  seconds : Nat
  minutes : Nat
  hours : Nat
  dayOfWeek : Nat
  day : Nat
  month : Nat
  year : Nat
deriving DecidableEq

/-- The bytes of a `DateTimeRegister` in memory order (`reinterpret_cast<uint8_t*>`). -/
def DateTimeRegister.toBytes (r : DateTimeRegister) : List Nat :=
  [r.seconds, r.minutes, r.hours, r.dayOfWeek, r.day, r.month, r.year]

/-- A `DateTimeRegister` filled from seven bytes in memory order. -/
def DateTimeRegister.ofBytes (l : List Nat) : DateTimeRegister :=
  { seconds := l.getD 0 0, minutes := l.getD 1 0, hours := l.getD 2 0,
    dayOfWeek := l.getD 3 0, day := l.getD 4 0, month := l.getD 5 0, year := l.getD 6 0 }

/-- The function `convertBcdToBin`: `(bcd&0xf)+((bcd>>4)*10)` as `uint8_t`. -/
def convertBcdToBin (bcd : Nat) : Nat :=
  ((bcd &&& 0xf) + ((bcd >>> 4) * 10)) % 256

/-- The function `convertBinToBcd`: `(bin%10)+((bin/10)<<4)` as `uint8_t`. -/
def convertBinToBcd (bin : Nat) : Nat :=
  ((bin % 10) + ((bin / 10) <<< 4)) % 256

/-- The function `readRegister(Register reg)`: one byte read from the register. -/
def readRegister (s : Driver) (reg : Register) : Nat :=
  s.chip.regs reg.toNat

/-- The function `readRegister(Register reg, uint8_t *valueOut, uint8_t count)`: `count` bytes read from
consecutive registers. -/
def readRegisters (s : Driver) (reg : Register) (count : Nat) : List Nat :=
  (List.range count).map (fun i => s.chip.regs (reg.toNat + i))

/-- The function `readFlag(Register reg, uint8_t bitMask)`. -/
def readFlag (s : Driver) (reg : Register) (bitMask : Nat) : Bool :=
  (readRegister s reg &&& bitMask) != 0

/-- The function `writeRegister(Register reg, uint8_t value)`. -/
def writeRegister (s : Driver) (reg : Register) (value : Nat) : Driver :=
  { s with chip := s.chip.write reg.toNat value }

/-- The function `writeRegister(Register reg, const uint8_t *valueIn, uint8_t count)`. -/
def writeRegisters (s : Driver) (reg : Register) (valueIn : List Nat) : Driver :=
  { s with chip := s.chip.writeBlock reg.toNat valueIn }

/-- The function `writeRegister(Register reg, uint8_t value, uint8_t mask)`. -/
def writeRegisterMasked (s : Driver) (reg : Register) (value mask : Nat) : Driver :=
  let value := value &&& mask
  let data := readRegister s reg
  let data := data &&& not8 mask
  let data := data ||| value
  writeRegister s reg data

/-- The function `setFlag(Register reg, uint8_t bitMask)`. -/
def setFlag (s : Driver) (reg : Register) (bitMask : Nat) : Driver :=
  let data := readRegister s reg
  let data := data ||| bitMask
  writeRegister s reg data

/-- The function `clearFlag(Register reg, uint8_t bitMask)`. -/
def clearFlag (s : Driver) (reg : Register) (bitMask : Nat) : Driver :=
  let data := readRegister s reg
  let data := data &&& not8 bitMask
  writeRegister s reg data

/-- The function `writeFlag(Register reg, uint8_t bitMask, bool enabled)`. -/
def writeFlag (s : Driver) (reg : Register) (bitMask : Nat) (enabled : Bool) : Driver :=
  if enabled then setFlag s reg bitMask else clearFlag s reg bitMask

/-- The function `initialize(uint16_t yearBase)`; the name is a reserved word here. -/
def initializeDriver (s : Driver) (yearBase : Nat) : Driver :=
  { s with gYearBase := yearBase }

/-- The function `getDateTime()`. The year argument is converted to the `uint16_t` parameter of
`fromUncheckedValues`. -/
def getDateTime (s : Driver) : DateTime :=
  let data := DateTimeRegister.ofBytes (readRegisters s Register.Seconds 7)
  DateTime.fromUncheckedValues
    ((convertBcdToBin data.year +
      (if (data.month &&& (1 <<< 7)) ≠ 0 then s.gYearBase + 100 else s.gYearBase)) % 65536)
    (convertBcdToBin (data.month &&& 0x1f))
    (convertBcdToBin (data.day &&& 0x3f))
    (convertBcdToBin (data.hours &&& 0x3f))
    (convertBcdToBin (data.minutes &&& 0x7f))
    (convertBcdToBin (data.seconds &&& 0x7f))
    (data.dayOfWeek &&& 0x7)

/-- The function `setDateTime(const DateTime &dateTime)`. -/
def setDateTime (intBits : Nat) (s : Driver) (dateTime : DateTime) : Driver :=
  let newYear := dateTime.getYear
  if newYear < s.gYearBase ∨ newYear ≥ arith16 intBits (s.gYearBase + 200) then
    s
  else
    let data : DateTimeRegister :=
      { seconds := convertBinToBcd dateTime.getSecond
        minutes := convertBinToBcd dateTime.getMinute
        hours := convertBinToBcd dateTime.getHour
        dayOfWeek := dateTime.getDayOfWeek
        day := convertBinToBcd dateTime.getDay
        month := (convertBinToBcd dateTime.getMonth |||
          (if dateTime.getYear ≥ arith16 intBits (s.gYearBase + 100) then 1 <<< 7 else 0)) % 256
        year := convertBinToBcd (dateTime.getYear % 100) }
    let s := writeRegisters s Register.Seconds data.toBytes
    let s := writeRegister s Register.Control 0
    writeRegister s Register.Status 0

end DS3231

/-! ## `Color` -/

/-- The public data members of the class `Color`. -/
structure Color where
  r : Nat
  g : Nat
  b : Nat
  w : Nat
deriving DecidableEq

namespace Color

/-- The `uint16_t` sum `((uint16_t)a * aShift) + ((uint16_t)b * bShift)` computed in
`Color::mix` for one channel, before the division. -/
def mixSum (intBits a b shift : Nat) : Nat :=
  let aShift := (0x100 - shift) % 65536
  let bShift := shift % 65536
  arith16 intBits (arith16 intBits (a * aShift) + arith16 intBits (b * bShift))

/-- One channel of `Color::mix`: the sum divided by `0x100`, stored in a `uint8_t`. -/
def mixChannel (intBits a b shift : Nat) : Nat :=
  (mixSum intBits a b shift / 0x100) % 256

/-- The function `Color::mix(const Color &other, uint8_t shift)`. -/
def mix (intBits : Nat) (c other : Color) (shift : Nat) : Color :=
  let newR := mixChannel intBits c.r other.r shift
  let newG := mixChannel intBits c.g other.g shift
  let newB := mixChannel intBits c.b other.b shift
  let newW := mixChannel intBits c.w other.w shift
  { r := newR, g := newG, b := newB, w := newW }

/-! ## Statement-level definitions -/

/-- What the specification says of one channel of a mix: the result `res` is the floor of
`(a*(256-shift) + b*shift) / 256`, the sum the code computes is that exact value and stays
below `65536`, and the result lies between the smaller and the larger of `a` and `b`. -/
def ChannelSpec (intBits a b shift res : Nat) : Prop :=
  res = (a * (256 - shift) + b * shift) / 256 ∧
  mixSum intBits a b shift = a * (256 - shift) + b * shift ∧
  a * (256 - shift) + b * shift < 65536 ∧
  min a b ≤ res ∧ res ≤ max a b

end Color

/-- The elapsed seconds of a date/time before the conversion to `uint32_t`. -/
def DateTime.linearSeconds (d : DateTime) : Nat :=
  daysSince2000 d.year d.month d.day * 86400 + d.hour * 3600 + d.minute * 60 + d.second

namespace DS3231

/-- A driver state with every register zero and nothing written yet. -/
def blankDriver : Driver :=
  { gYearBase := 0, chip := { regs := fun _ => 0, writes := [] } }

/-- A driver state whose Control register holds `0x04` (flag `INTCN` set, every other flag
clear) and to which nothing has been written yet. -/
def intcnSetDriver : Driver :=
  { gYearBase := 2000
    chip := { regs := fun a => if a = 0x0e then 0x04 else 0, writes := [] } }

end DS3231

set_option maxRecDepth 8000

/-! ## Lemmas on C arithmetic and the BCD register encoding -/

theorem arith16_of_lt (intBits x : Nat) (h : x < 65536) : arith16 intBits x = x := by
  unfold arith16
  split
  · rfl
  · exact Nat.mod_eq_of_lt h

theorem arith16_le (intBits x : Nat) : arith16 intBits x ≤ x := by
  unfold arith16
  split
  · exact Nat.le_refl _
  · exact Nat.mod_le _ _

theorem not8_testBit (m i : Nat) (hm : m < 256) :
    (not8 m).testBit i = (decide (i < 8) && !m.testBit i) := by
  have h : not8 m = 2 ^ 8 - (m + 1) := by
    unfold not8
    rw [Nat.mod_eq_of_lt hm]
    omega
  rw [h]
  exact Nat.testBit_two_pow_sub_succ (by simpa using hm) i

namespace DS3231

/-- Decoding an encoded two-digit value gives the value back, also through the seven-bit
mask of the seconds and minutes registers. -/
theorem bcd_roundtrip_mask7f (n : Nat) (h : n < 60) :
    convertBcdToBin (convertBinToBcd n &&& 0x7f) = n := by
  revert n
  decide

/-- Decoding through the six-bit mask of the hours and day registers. -/
theorem bcd_roundtrip_mask3f (n : Nat) (h : n < 32) :
    convertBcdToBin (convertBinToBcd n &&& 0x3f) = n := by
  revert n
  decide

/-- Decoding the month through the five-bit mask, whatever the century bit is. -/
theorem bcd_roundtrip_month (n c : Nat) (h : n < 13) (hc : c = 0 ∨ c = 1 <<< 7) :
    convertBcdToBin (((convertBinToBcd n ||| c) % 256) &&& 0x1f) = n := by
  rcases hc with rfl | rfl <;> (revert n; decide)

/-- The century bit is read back as written. -/
theorem century_bit (n c : Nat) (h : n < 13) (hc : c = 0 ∨ c = 1 <<< 7) :
    ((convertBinToBcd n ||| c) % 256) &&& (1 <<< 7) = c := by
  rcases hc with rfl | rfl <;> (revert n; decide)

/-- Decoding an encoded two-digit year gives it back. -/
theorem bcd_roundtrip_year (n : Nat) (h : n < 100) :
    convertBcdToBin (convertBinToBcd n) = n := by
  revert n
  decide

end DS3231

/-! ## Lemmas on the calendar arithmetic -/

theorem spanDays_succ (len : Nat → Nat) (first count : Nat) :
    spanDays len first (count + 1) = spanDays len first count + len (first + count) := by
  induction count generalizing first with
  | zero => simp [spanDays]
  | succ n ih =>
    rw [spanDays, ih (first + 1), spanDays]
    have : first + 1 + n = first + (n + 1) := by omega
    rw [this]
    omega

theorem spanDays_mono (len : Nat → Nat) (first : Nat) {j k : Nat} (h : j ≤ k) :
    spanDays len first j ≤ spanDays len first k := by
  induction h with
  | refl => exact Nat.le_refl _
  | step _ ih => rw [spanDays_succ]; omega

/-- Peeling inverts accumulation: from the days of `count` whole units plus a rest that does
not fill the next unit, the loop, given at least `count` rounds, stops at that unit with that
rest. -/
theorem peel_spanDays (len : Nat → Nat) (count : Nat) :
    ∀ fuel first rest : Nat, count ≤ fuel → rest < len (first + count) →
      peel len fuel first (spanDays len first count + rest) = (first + count, rest) := by
  induction count with
  | zero =>
    intro fuel first rest _ hr
    cases fuel with
    | zero => simp [peel, spanDays]
    | succ f =>
      have : ¬ len first ≤ rest := by simpa using hr
      simp [peel, spanDays, this]
  | succ n ih =>
    intro fuel first rest hf hr
    cases fuel with
    | zero => omega
    | succ f =>
      have hle : len first ≤ spanDays len first (n + 1) + rest := by
        rw [spanDays]; omega
      have hsub : spanDays len first (n + 1) + rest - len first
          = spanDays len (first + 1) n + rest := by
        rw [spanDays]; omega
      have hidx : first + 1 + n = first + (n + 1) := by omega
      rw [peel, if_pos hle, hsub, ih f (first + 1) rest (by omega) (by rw [hidx]; exact hr), hidx]

theorem daysInYear_ge (year : Nat) : 365 ≤ daysInYear year := by
  unfold daysInYear; split <;> decide

theorem le_spanDays_daysInYear (first count : Nat) : count ≤ spanDays daysInYear first count := by
  induction count generalizing first with
  | zero => exact Nat.le_refl _
  | succ n ih =>
    have h1 := ih (first + 1)
    have h2 := daysInYear_ge first
    rw [spanDays]; omega

theorem spanDays_daysInMonth_full (year : Nat) :
    spanDays (daysInMonth year) 1 12 = daysInYear year := by
  simp only [spanDays, daysInMonth, daysInYear]
  split <;> rfl

theorem dayOfYear_lt (year month day : Nat) (hm1 : 1 ≤ month) (hm2 : month ≤ 12)
    (hd1 : 1 ≤ day) (hd2 : day ≤ daysInMonth year month) :
    spanDays (daysInMonth year) 1 (month - 1) + (day - 1) < daysInYear year := by
  have h1 : spanDays (daysInMonth year) 1 (month - 1 + 1)
      = spanDays (daysInMonth year) 1 (month - 1) + daysInMonth year (1 + (month - 1)) :=
    spanDays_succ _ _ _
  have h2 : month - 1 + 1 = month := by omega
  have h3 : 1 + (month - 1) = month := by omega
  rw [h2, h3] at h1
  have h4 := spanDays_mono (daysInMonth year) 1 hm2
  rw [spanDays_daysInMonth_full] at h4
  omega

theorem spanDays_years_136 : spanDays daysInYear 2000 136 = 49673 := by
  decide

theorem daysSince2000_lt (year month day : Nat) (hy1 : 2000 ≤ year) (hy2 : year ≤ 2135)
    (hm1 : 1 ≤ month) (hm2 : month ≤ 12) (hd1 : 1 ≤ day) (hd2 : day ≤ daysInMonth year month) :
    daysSince2000 year month day < 49673 := by
  have h1 := dayOfYear_lt year month day hm1 hm2 hd1 hd2
  have h2 := spanDays_succ daysInYear 2000 (year - 2000)
  have h3 : 2000 + (year - 2000) = year := by omega
  rw [h3] at h2
  have h4 := spanDays_mono daysInYear 2000 (by omega : year - 2000 + 1 ≤ 136)
  rw [spanDays_years_136] at h4
  unfold daysSince2000
  omega

theorem fromSecondsSince2000_parts (e days year dayOfYear month dayOfMonth rest : Nat)
    (h1 : peel daysInYear days 2000 days = (year, dayOfYear))
    (h2 : peel (daysInMonth year) 12 1 dayOfYear = (month, dayOfMonth))
    (hr : rest < 86400) :
    DateTime.fromSecondsSince2000 e (days * 86400 + rest)
      = { year := year, month := month, day := dayOfMonth + 1
          hour := rest / 3600, minute := rest % 3600 / 60, second := rest % 60
          dayOfWeek := (e + days) % 7 } := by
  have hq : (days * 86400 + rest) / 86400 = days := by omega
  have hm : (days * 86400 + rest) % 86400 = rest := by omega
  simp only [DateTime.fromSecondsSince2000, hq, hm, h1, h2]

theorem toSecondsSince2000_eq_linear (e : Nat) (d : DateTime) (hv : d.valid e)
    (hy : d.year ≤ 2135) : d.toSecondsSince2000 = d.linearSeconds := by
  obtain ⟨hy1, -, hm1, hm2, hd1, hd2, hh, hmi, hs, -⟩ := hv
  have hlt := daysSince2000_lt d.year d.month d.day hy1 hy hm1 hm2 hd1 hd2
  unfold DateTime.toSecondsSince2000 DateTime.linearSeconds
  exact Nat.mod_eq_of_lt (by omega)

theorem lt_trichotomy (a b : DateTime) :
    a.lt b = true ∨ b.lt a = true ∨
    (a.year = b.year ∧ a.month = b.month ∧ a.day = b.day ∧ a.hour = b.hour ∧
      a.minute = b.minute ∧ a.second = b.second) := by
  unfold DateTime.lt
  by_cases h1 : a.year = b.year
  · by_cases h2 : a.month = b.month
    · by_cases h3 : a.day = b.day
      · by_cases h4 : a.hour = b.hour
        · by_cases h5 : a.minute = b.minute
          · by_cases h6 : a.second = b.second
            · exact Or.inr (Or.inr ⟨h1, h2, h3, h4, h5, h6⟩)
            · simp [h1, h2, h3, h4, h5]; omega
          · simp [h1, h2, h3, h4, h5, Ne.symm h5]
        · simp [h1, h2, h3, h4, Ne.symm h4]
      · simp [h1, h2, h3, Ne.symm h3]
    · simp [h1, h2, Ne.symm h2]
  · simp [h1, Ne.symm h1]

theorem linearSeconds_lt_of_lt (e : Nat) (a b : DateTime) (ha : a.valid e) (hb : b.valid e)
    (h : a.lt b = true) : a.linearSeconds < b.linearSeconds := by
  obtain ⟨ay1, -, am1, am2, ad1, ad2, ah, ami, as, -⟩ := ha
  obtain ⟨by1, -, bm1, bm2, bd1, bd2, bh, bmi, bs, -⟩ := hb
  unfold DateTime.linearSeconds daysSince2000
  unfold DateTime.lt at h
  by_cases h1 : a.year = b.year
  · rw [if_neg (by simpa using h1)] at h
    rw [← h1] at bd2 ⊢
    by_cases h2 : a.month = b.month
    · rw [if_neg (by simpa using h2)] at h
      rw [← h2] at bd2 ⊢
      by_cases h3 : a.day = b.day
      · rw [if_neg (by simpa using h3)] at h
        rw [← h3]
        by_cases h4 : a.hour = b.hour
        · rw [if_neg (by simpa using h4)] at h
          by_cases h5 : a.minute = b.minute
          · rw [if_neg (by simpa using h5)] at h
            have := of_decide_eq_true h
            omega
          · rw [if_pos h5] at h
            have := of_decide_eq_true h
            omega
        · rw [if_pos h4] at h
          have := of_decide_eq_true h
          omega
      · rw [if_pos h3] at h
        have := of_decide_eq_true h
        omega
    · rw [if_pos h2] at h
      have hlt := of_decide_eq_true h
      have s1 := spanDays_succ (daysInMonth a.year) 1 (a.month - 1)
      have e1 : 1 + (a.month - 1) = a.month := by omega
      rw [e1] at s1
      have s2 := spanDays_mono (daysInMonth a.year) 1 (by omega : a.month - 1 + 1 ≤ b.month - 1)
      omega
  · rw [if_pos h1] at h
    have hlt := of_decide_eq_true h
    have d1 := dayOfYear_lt a.year a.month a.day am1 am2 ad1 ad2
    have s1 := spanDays_succ daysInYear 2000 (a.year - 2000)
    have e1 : 2000 + (a.year - 2000) = a.year := by omega
    rw [e1] at s1
    have s2 := spanDays_mono daysInYear 2000 (by omega : a.year - 2000 + 1 ≤ b.year - 2000)
    omega

theorem constrain_bounds (x lo hi : Nat) (h : lo ≤ hi) :
    lo ≤ constrain x lo hi ∧ constrain x lo hi ≤ hi := by
  unfold constrain
  split
  · omega
  · split <;> omega

theorem daysInMonth_pos (year month : Nat) (h1 : 1 ≤ month) (h2 : month ≤ 12) :
    28 ≤ daysInMonth year month := by
  unfold daysInMonth
  interval_cases month <;> simp only [] <;> first | decide | (split <;> decide)

theorem mixChannel_spec (intBits a b shift : Nat) (ha : a < 256) (hb : b < 256)
    (hs : shift < 256) : Color.ChannelSpec intBits a b shift (Color.mixChannel intBits a b shift) := by
  have hat : a * (256 - shift) ≤ 255 * (256 - shift) := Nat.mul_le_mul_right _ (by omega)
  have hbs : b * shift ≤ 255 * shift := Nat.mul_le_mul_right _ (by omega)
  have hsum : a * (256 - shift) + b * shift < 65536 := by omega
  have hmin1 : min a b * (256 - shift) ≤ a * (256 - shift) :=
    Nat.mul_le_mul_right _ (Nat.min_le_left a b)
  have hmin2 : min a b * shift ≤ b * shift := Nat.mul_le_mul_right _ (Nat.min_le_right a b)
  have hmax1 : a * (256 - shift) ≤ max a b * (256 - shift) :=
    Nat.mul_le_mul_right _ (Nat.le_max_left a b)
  have hmax2 : b * shift ≤ max a b * shift := Nat.mul_le_mul_right _ (Nat.le_max_right a b)
  have hmind : min a b * (256 - shift) + min a b * shift = min a b * 256 := by
    rw [← Nat.mul_add]; congr 1; omega
  have hmaxd : max a b * (256 - shift) + max a b * shift = max a b * 256 := by
    rw [← Nat.mul_add]; congr 1; omega
  have hexact : Color.mixSum intBits a b shift = a * (256 - shift) + b * shift := by
    simp only [Color.mixSum]
    rw [Nat.mod_eq_of_lt (by omega : 0x100 - shift < 65536),
      Nat.mod_eq_of_lt (by omega : shift < 65536)]
    show arith16 intBits (arith16 intBits (a * (256 - shift)) + arith16 intBits (b * shift)) = _
    rw [arith16_of_lt intBits (a * (256 - shift)) (by omega),
      arith16_of_lt intBits (b * shift) (by omega), arith16_of_lt _ _ hsum]
  have hlo : min a b ≤ (a * (256 - shift) + b * shift) / 256 := by
    rw [Nat.le_div_iff_mul_le (by decide)]; omega
  have hhi : (a * (256 - shift) + b * shift) / 256 ≤ max a b :=
    Nat.div_le_of_le_mul (by omega)
  have hres : Color.mixChannel intBits a b shift = (a * (256 - shift) + b * shift) / 256 := by
    simp only [Color.mixChannel, hexact]
    exact Nat.mod_eq_of_lt (by omega)
  exact ⟨hres, hexact, hsum, hres ▸ hlo, hres ▸ hhi⟩

/-! ## The claims -/

/-- C1: with the year base initialised to 2000 and registers that read back the bytes last
written, `setDateTime d` followed by `getDateTime` returns the year, month, day, hour,
minute, second and day of the week of `d`, for every `d` with year 2000..2199, month 1..12,
day 1..31, hour 0..23, minute and second 0..59 and day of the week 0..6. -/
theorem DS3231.setDateTime_getDateTime_roundtrip (intBits : Nat) (s : DS3231.Driver)
    (d : DateTime)
    (hy : 2000 ≤ d.year ∧ d.year ≤ 2199) (hmo : 1 ≤ d.month ∧ d.month ≤ 12)
    (hd : 1 ≤ d.day ∧ d.day ≤ 31) (hh : d.hour ≤ 23) (hmi : d.minute ≤ 59)
    (hs : d.second ≤ 59) (hw : d.dayOfWeek ≤ 6) :
    (DS3231.getDateTime (DS3231.setDateTime intBits (DS3231.initializeDriver s 2000) d)).getYear
      = d.getYear ∧
    (DS3231.getDateTime (DS3231.setDateTime intBits (DS3231.initializeDriver s 2000) d)).getMonth
      = d.getMonth ∧
    (DS3231.getDateTime (DS3231.setDateTime intBits (DS3231.initializeDriver s 2000) d)).getDay
      = d.getDay ∧
    (DS3231.getDateTime (DS3231.setDateTime intBits (DS3231.initializeDriver s 2000) d)).getHour
      = d.getHour ∧
    (DS3231.getDateTime (DS3231.setDateTime intBits (DS3231.initializeDriver s 2000) d)).getMinute
      = d.getMinute ∧
    (DS3231.getDateTime (DS3231.setDateTime intBits (DS3231.initializeDriver s 2000) d)).getSecond
      = d.getSecond ∧
    (DS3231.getDateTime
      (DS3231.setDateTime intBits (DS3231.initializeDriver s 2000) d)).getDayOfWeek
      = d.getDayOfWeek := by
  obtain ⟨y, mo, dd, h, mi, sec, w⟩ := d
  simp only at hy hmo hd hh hmi hs hw
  have hbase200 : arith16 intBits (2000 + 200) = 2200 := arith16_of_lt _ _ (by decide)
  have hbase100 : arith16 intBits (2000 + 100) = 2100 := arith16_of_lt _ _ (by decide)
  have hguard : ¬ (y < 2000 ∨ y ≥ 2200) := by omega
  simp only [DS3231.setDateTime, DS3231.initializeDriver, DateTime.getYear, hbase200, hbase100,
    hguard, if_false, DS3231.getDateTime, DS3231.readRegisters, DS3231.writeRegisters,
    DS3231.writeRegister, DS3231.DateTimeRegister.toBytes, DS3231.DateTimeRegister.ofBytes,
    DS3231.Chip.writeBlock, DS3231.Chip.write, DS3231.Register.toNat,
    DateTime.fromUncheckedValues, DateTime.getMonth, DateTime.getDay, DateTime.getHour,
    DateTime.getMinute, DateTime.getSecond, DateTime.getDayOfWeek]
  simp [List.range, List.range.loop]
  have hyear : DS3231.convertBcdToBin (DS3231.convertBinToBcd (y % 100)) = y % 100 :=
    DS3231.bcd_roundtrip_year (y % 100) (Nat.mod_lt _ (by decide))
  have hw7 : w &&& 7 = w := by
    revert hw; revert w; decide
  have hcent : (if 2100 ≤ y then 128 else 0) = 0 ∨ (if 2100 ≤ y then 128 else 0) = 1 <<< 7 := by
    split
    · exact Or.inr rfl
    · exact Or.inl rfl
  refine ⟨?_, ?_, ?_, ?_, ?_, ?_, hw7⟩
  · have hcb : (DS3231.convertBinToBcd mo ||| if 2100 ≤ y then 128 else 0) % 256 &&& 128
        = (if 2100 ≤ y then 128 else 0) := DS3231.century_bit mo _ (by omega) hcent
    rw [hyear, hcb]
    by_cases hc : 2100 ≤ y
    · simp only [hc, if_true]
      norm_num
      omega
    · simp only [hc, if_false]
      norm_num
      omega
  · exact DS3231.bcd_roundtrip_month mo _ (by omega) hcent
  · exact DS3231.bcd_roundtrip_mask3f dd (by omega)
  · exact DS3231.bcd_roundtrip_mask3f h (by omega)
  · exact DS3231.bcd_roundtrip_mask7f mi (by omega)
  · exact DS3231.bcd_roundtrip_mask7f sec (by omega)

/-- Witness of C1: 2150-12-31 23:59:59, day of the week 6, written on a 16-bit target. -/
theorem DS3231.setDateTime_getDateTime_roundtrip_witness :
    (DS3231.getDateTime (DS3231.setDateTime 16 (DS3231.initializeDriver DS3231.blankDriver 2000)
      ⟨2150, 12, 31, 23, 59, 59, 6⟩)).getYear = 2150 ∧
    (DS3231.getDateTime (DS3231.setDateTime 16 (DS3231.initializeDriver DS3231.blankDriver 2000)
      ⟨2150, 12, 31, 23, 59, 59, 6⟩)).getMonth = 12 :=
  have h := DS3231.setDateTime_getDateTime_roundtrip 16 DS3231.blankDriver
    ⟨2150, 12, 31, 23, 59, 59, 6⟩ (by decide) (by decide) (by decide) (by decide) (by decide)
    (by decide) (by decide)
  ⟨h.1, h.2.1⟩

/-- C2: for every valid date/time `x` with year in 2000..2135, decoding the elapsed seconds of
`x` gives `x` back, every field and the recomputed day of the week included. -/
theorem DateTime.fromSecondsSince2000_toSecondsSince2000 (epochDayOfWeek : Nat) (x : DateTime)
    (hv : x.valid epochDayOfWeek) (hy : x.year ≤ 2135) :
    DateTime.fromSecondsSince2000 epochDayOfWeek x.toSecondsSince2000 = x := by
  obtain ⟨y, mo, d, h, mi, s, w⟩ := x
  obtain ⟨hy1, -, hm1, hm2, hd1, hd2, hh, hmi, hs, hw⟩ := hv
  simp only at hy hy1 hm1 hm2 hd1 hd2 hh hmi hs hw
  have hlt := daysSince2000_lt y mo d hy1 hy hm1 hm2 hd1 hd2
  have hdoy := dayOfYear_lt y mo d hm1 hm2 hd1 hd2
  have hfuel := le_spanDays_daysInYear 2000 (y - 2000)
  have hy3 : 2000 + (y - 2000) = y := by omega
  have hm3 : 1 + (mo - 1) = mo := by omega
  have hyear : peel daysInYear (daysSince2000 y mo d) 2000 (daysSince2000 y mo d)
      = (y, spanDays (daysInMonth y) 1 (mo - 1) + (d - 1)) := by
    have := peel_spanDays daysInYear (y - 2000) (daysSince2000 y mo d) 2000
      (spanDays (daysInMonth y) 1 (mo - 1) + (d - 1))
      (by unfold daysSince2000; omega) (by rw [hy3]; exact hdoy)
    rw [hy3] at this
    rw [← this]
    unfold daysSince2000
    rw [Nat.add_assoc]
  have hmonth : peel (daysInMonth y) 12 1 (spanDays (daysInMonth y) 1 (mo - 1) + (d - 1))
      = (mo, d - 1) := by
    have := peel_spanDays (daysInMonth y) (mo - 1) 12 1 (d - 1) (by omega)
      (by rw [hm3]; omega)
    rw [hm3] at this
    exact this
  have hsec : DateTime.toSecondsSince2000
      { year := y, month := mo, day := d, hour := h, minute := mi, second := s, dayOfWeek := w }
      = daysSince2000 y mo d * 86400 + (h * 3600 + mi * 60 + s) := by
    simp only [DateTime.toSecondsSince2000]
    rw [Nat.mod_eq_of_lt (by omega)]
    omega
  rw [hsec, fromSecondsSince2000_parts _ _ _ _ _ _ _ hyear hmonth (by omega)]
  have e1 : d - 1 + 1 = d := by omega
  have e2 : (h * 3600 + mi * 60 + s) / 3600 = h := by omega
  have e3 : (h * 3600 + mi * 60 + s) % 3600 / 60 = mi := by omega
  have e4 : (h * 3600 + mi * 60 + s) % 60 = s := by omega
  rw [e1, e2, e3, e4, hw]
  rfl

/-- Witness of C2: the last second of 2135, with 2000-01-01 counted as day 6 of the week. -/
theorem DateTime.fromSecondsSince2000_toSecondsSince2000_witness :
    DateTime.valid 6 ⟨2135, 12, 31, 23, 59, 59, 6⟩ ∧
    DateTime.fromSecondsSince2000 6
      (DateTime.toSecondsSince2000 ⟨2135, 12, 31, 23, 59, 59, 6⟩)
      = ⟨2135, 12, 31, 23, 59, 59, 6⟩ :=
  ⟨by decide, DateTime.fromSecondsSince2000_toSecondsSince2000 6
    ⟨2135, 12, 31, 23, 59, 59, 6⟩ (by decide) (by decide)⟩

/-- C3: the checked constructor is total and its result always satisfies the invariant: year
in 2000..9999, month in 1..12, day in 1..(days of that month in that year), hour in 0..23,
minute and second in 0..59, day of the week consistent with the date. 2000-02-29 is kept as
given; 2100-02-29 is not kept as day 29 of February 2100 (it becomes day 28). -/
theorem DateTime.fromValues_valid (epochDayOfWeek year month day hour minute second : Nat) :
    (DateTime.fromValues epochDayOfWeek year month day hour minute second).valid epochDayOfWeek ∧
    ((DateTime.fromValues epochDayOfWeek 2000 2 29 hour minute second).year = 2000 ∧
      (DateTime.fromValues epochDayOfWeek 2000 2 29 hour minute second).month = 2 ∧
      (DateTime.fromValues epochDayOfWeek 2000 2 29 hour minute second).day = 29) ∧
    ((DateTime.fromValues epochDayOfWeek 2100 2 29 hour minute second).year = 2100 ∧
      (DateTime.fromValues epochDayOfWeek 2100 2 29 hour minute second).month = 2 ∧
      (DateTime.fromValues epochDayOfWeek 2100 2 29 hour minute second).day = 28) := by
  refine ⟨?_, ⟨rfl, rfl, rfl⟩, ⟨rfl, rfl, rfl⟩⟩
  have hy := constrain_bounds year 2000 9999 (by decide)
  have hm := constrain_bounds month 1 12 (by decide)
  have hdm := daysInMonth_pos (constrain year 2000 9999) (constrain month 1 12) hm.1 hm.2
  have hd := constrain_bounds day 1
    (daysInMonth (constrain year 2000 9999) (constrain month 1 12)) (by omega)
  have hh := constrain_bounds hour 0 23 (by decide)
  have hmi := constrain_bounds minute 0 59 (by decide)
  have hs := constrain_bounds second 0 59 (by decide)
  exact ⟨hy.1, hy.2, hm.1, hm.2, hd.1, hd.2, hh.2, hmi.2, hs.2, rfl⟩

/-- C4 as stated fails: 2000-01-01 00:00:01 and 2136-02-07 06:28:16 are both valid and the
first is less than the second, but the elapsed seconds of the second are 2^32, which the
`uint32_t` result holds as 0, not more than the 1 of the first. -/
theorem DateTime.lt_iff_toSecondsSince2000_lt_fails_after_2135 :
    DateTime.valid 6 ⟨2000, 1, 1, 0, 0, 1, 6⟩ ∧ DateTime.valid 6 ⟨2136, 2, 7, 6, 28, 16, 2⟩ ∧
    ¬ (DateTime.lt ⟨2000, 1, 1, 0, 0, 1, 6⟩ ⟨2136, 2, 7, 6, 28, 16, 2⟩ = true ↔
        DateTime.toSecondsSince2000 ⟨2000, 1, 1, 0, 0, 1, 6⟩
          < DateTime.toSecondsSince2000 ⟨2136, 2, 7, 6, 28, 16, 2⟩) := by
  decide

/-- C4, amended: for all valid date/times `a` and `b` with years in 2000..2135, `a < b` holds
if and only if the elapsed seconds of `a` are less than those of `b`. -/
theorem DateTime.lt_iff_toSecondsSince2000_lt (epochDayOfWeek : Nat) (a b : DateTime)
    (ha : a.valid epochDayOfWeek) (hb : b.valid epochDayOfWeek)
    (hay : a.year ≤ 2135) (hby : b.year ≤ 2135) :
    a.lt b = true ↔ a.toSecondsSince2000 < b.toSecondsSince2000 := by
  rw [toSecondsSince2000_eq_linear _ a ha hay, toSecondsSince2000_eq_linear _ b hb hby]
  constructor
  · exact linearSeconds_lt_of_lt _ a b ha hb
  · intro h
    rcases lt_trichotomy a b with h1 | h1 | ⟨e1, e2, e3, e4, e5, e6⟩
    · exact h1
    · have := linearSeconds_lt_of_lt _ b a hb ha h1
      omega
    · unfold DateTime.linearSeconds at h
      rw [e1, e2, e3, e4, e5, e6] at h
      omega

/-- Witness of the amended C4: 2100-02-28 23:59:59 and 2100-03-01 00:00:00. -/
theorem DateTime.lt_iff_toSecondsSince2000_lt_witness :
    DateTime.valid 6 ⟨2100, 2, 28, 23, 59, 59, 0⟩ ∧ DateTime.valid 6 ⟨2100, 3, 1, 0, 0, 0, 1⟩ ∧
    (DateTime.lt ⟨2100, 2, 28, 23, 59, 59, 0⟩ ⟨2100, 3, 1, 0, 0, 0, 1⟩ = true ↔
      DateTime.toSecondsSince2000 ⟨2100, 2, 28, 23, 59, 59, 0⟩
        < DateTime.toSecondsSince2000 ⟨2100, 3, 1, 0, 0, 0, 1⟩) :=
  ⟨by decide, by decide, DateTime.lt_iff_toSecondsSince2000_lt 6
    ⟨2100, 2, 28, 23, 59, 59, 0⟩ ⟨2100, 3, 1, 0, 0, 0, 1⟩
    (by decide) (by decide) (by decide) (by decide)⟩

/-- C5 fails on the code: with the Control register holding `0x04`, the flag `0x04` already
reads as set and the flag `0x01` as clear, yet `writeFlag` setting the first and `writeFlag`
clearing the second each write the register once (with its old content). -/
theorem DS3231.writeFlag_writes_unchanged_flag :
    DS3231.readFlag DS3231.intcnSetDriver DS3231.Register.Control 0x04 = true ∧
    (DS3231.writeFlag DS3231.intcnSetDriver DS3231.Register.Control 0x04 true).chip.writes
      = [(0x0e, 0x04)] ∧
    DS3231.readFlag DS3231.intcnSetDriver DS3231.Register.Control 0x01 = false ∧
    (DS3231.writeFlag DS3231.intcnSetDriver DS3231.Register.Control 0x01 false).chip.writes
      = [(0x0e, 0x04)] := by
  decide

/-- C6: the masked `writeRegister` leaves `(old AND NOT mask) OR (value AND mask)` in the
register: every bit is that of `value` where the mask bit is 1 and that of the old content
where it is 0; every other register reads as before, and the one write performed is the
write of that byte to that register. -/
theorem DS3231.writeRegisterMasked_spec (s : DS3231.Driver) (reg : DS3231.Register)
    (value mask : Nat) (hold : DS3231.readRegister s reg < 256) (hm : mask < 256) :
    DS3231.readRegister (DS3231.writeRegisterMasked s reg value mask) reg
        = (DS3231.readRegister s reg &&& (255 - mask)) ||| (value &&& mask) ∧
    (∀ i : Nat,
      (DS3231.readRegister (DS3231.writeRegisterMasked s reg value mask) reg).testBit i
        = if mask.testBit i then value.testBit i
          else (DS3231.readRegister s reg).testBit i) ∧
    (∀ r : DS3231.Register, r ≠ reg →
      DS3231.readRegister (DS3231.writeRegisterMasked s reg value mask) r
        = DS3231.readRegister s r) ∧
    (DS3231.writeRegisterMasked s reg value mask).chip.writes
        = s.chip.writes ++
          [(reg.toNat, (DS3231.readRegister s reg &&& (255 - mask)) ||| (value &&& mask))] := by
  have hn : not8 mask = 255 - mask := by
    unfold not8; rw [Nat.mod_eq_of_lt hm]
  have hval : DS3231.readRegister (DS3231.writeRegisterMasked s reg value mask) reg
      = (DS3231.readRegister s reg &&& (255 - mask)) ||| (value &&& mask) := by
    simp [DS3231.writeRegisterMasked, DS3231.writeRegister, DS3231.readRegister,
      DS3231.Chip.write, hn]
  refine ⟨hval, ?_, ?_, ?_⟩
  · intro i
    rw [hval, ← hn, Nat.testBit_lor, Nat.testBit_land, Nat.testBit_land, not8_testBit _ _ hm]
    by_cases hi : i < 8
    · cases mask.testBit i <;> cases value.testBit i <;>
        cases (DS3231.readRegister s reg).testBit i <;> simp [hi]
    · have h8 : 2 ^ 8 ≤ 2 ^ i := Nat.pow_le_pow_right (by decide) (by omega)
      have ho : (DS3231.readRegister s reg).testBit i = false :=
        Nat.testBit_lt_two_pow (by omega)
      have hmk : mask.testBit i = false := Nat.testBit_lt_two_pow (by omega)
      simp [hi, ho, hmk]
  · intro r hr
    have hne : r.toNat ≠ reg.toNat := by
      intro h
      apply hr
      cases r <;> cases reg <;> simp_all [DS3231.Register.toNat]
    simp [DS3231.writeRegisterMasked, DS3231.writeRegister, DS3231.readRegister,
      DS3231.Chip.write, hne]
  · simp [DS3231.writeRegisterMasked, DS3231.writeRegister, DS3231.readRegister,
      DS3231.Chip.write, hn]

/-- Witness of C6: the rate-select bits `0x18` of a Control register holding `0x04` are
written from the value `0xff`; the register then holds `0x1c`. -/
theorem DS3231.writeRegisterMasked_spec_witness :
    DS3231.readRegister DS3231.intcnSetDriver DS3231.Register.Control < 256 ∧
    DS3231.readRegister
      (DS3231.writeRegisterMasked DS3231.intcnSetDriver DS3231.Register.Control 0xff 0x18)
      DS3231.Register.Control
        = (DS3231.readRegister DS3231.intcnSetDriver DS3231.Register.Control &&& (255 - 0x18))
          ||| (0xff &&& 0x18) :=
  ⟨by decide, (DS3231.writeRegisterMasked_spec DS3231.intcnSetDriver DS3231.Register.Control
    0xff 0x18 (by decide) (by decide)).1⟩

/-- C7: for channels and a shift that fit a byte, every channel of `mix` is the floor of
`(a*(256-shift) + b*shift) / 256`, the sum is computed without wrap-around (it is below
`65536`), the result lies between `min a b` and `max a b`, and `mix other 0` is this
colour. -/
theorem Color.mix_linear_interpolation (intBits : Nat) (c other : Color) (shift : Nat)
    (hc : c.r < 256 ∧ c.g < 256 ∧ c.b < 256 ∧ c.w < 256)
    (ho : other.r < 256 ∧ other.g < 256 ∧ other.b < 256 ∧ other.w < 256)
    (hs : shift < 256) :
    Color.ChannelSpec intBits c.r other.r shift (Color.mix intBits c other shift).r ∧
    Color.ChannelSpec intBits c.g other.g shift (Color.mix intBits c other shift).g ∧
    Color.ChannelSpec intBits c.b other.b shift (Color.mix intBits c other shift).b ∧
    Color.ChannelSpec intBits c.w other.w shift (Color.mix intBits c other shift).w ∧
    Color.mix intBits c other 0 = c := by
  obtain ⟨h1, h2, h3, h4⟩ := hc
  obtain ⟨o1, o2, o3, o4⟩ := ho
  refine ⟨mixChannel_spec _ _ _ _ h1 o1 hs, mixChannel_spec _ _ _ _ h2 o2 hs,
    mixChannel_spec _ _ _ _ h3 o3 hs, mixChannel_spec _ _ _ _ h4 o4 hs, ?_⟩
  have z : ∀ a b, a < 256 → b < 256 → Color.mixChannel intBits a b 0 = a := by
    intro a b ha hb
    rw [(mixChannel_spec intBits a b 0 ha hb (by decide)).1]
    omega
  cases c
  simp only [Color.mix] at *
  rw [z _ _ h1 o1, z _ _ h2 o2, z _ _ h3 o3, z _ _ h4 o4]

/-- Witness of C7: full red mixed with full white at shift 255 on a 16-bit target. -/
theorem Color.mix_linear_interpolation_witness :
    Color.ChannelSpec 16 255 0 255 (Color.mix 16 ⟨255, 0, 0, 0⟩ ⟨0, 0, 0, 255⟩ 255).r ∧
    Color.mix 16 ⟨255, 0, 0, 0⟩ ⟨0, 0, 0, 255⟩ 0 = ⟨255, 0, 0, 0⟩ :=
  have h := Color.mix_linear_interpolation 16 ⟨255, 0, 0, 0⟩ ⟨0, 0, 0, 255⟩ 255
    (by decide) (by decide) (by decide)
  ⟨h.1, h.2.2.2.2⟩

/-- C8: with the year base `yearBase`, `setDateTime d` for a year below `yearBase` or at least
`yearBase + 200` returns the driver state as it was: no register is written and the time,
Control and Status registers keep their content. -/
theorem DS3231.setDateTime_ignores_year_out_of_range (intBits : Nat) (s : DS3231.Driver)
    (yearBase : Nat) (d : DateTime)
    (h : d.getYear < yearBase ∨ d.getYear ≥ yearBase + 200) :
    DS3231.setDateTime intBits (DS3231.initializeDriver s yearBase) d
        = DS3231.initializeDriver s yearBase ∧
    (DS3231.setDateTime intBits (DS3231.initializeDriver s yearBase) d).chip.writes
        = s.chip.writes := by
  have hg : d.getYear < yearBase ∨ d.getYear ≥ arith16 intBits (yearBase + 200) := by
    rcases h with h | h
    · exact Or.inl h
    · exact Or.inr (Nat.le_trans (arith16_le _ _) h)
  have he : DS3231.setDateTime intBits (DS3231.initializeDriver s yearBase) d
      = DS3231.initializeDriver s yearBase := by
    simp only [DS3231.setDateTime, DS3231.initializeDriver]
    rw [if_pos hg]
  exact ⟨he, by rw [he]; rfl⟩

/-- Witness of C8: the year 2200 with the year base 2000. -/
theorem DS3231.setDateTime_ignores_year_out_of_range_witness :
    (DS3231.setDateTime 32 (DS3231.initializeDriver DS3231.blankDriver 2000)
      ⟨2200, 1, 1, 0, 0, 0, 3⟩).chip.writes = [] :=
  (DS3231.setDateTime_ignores_year_out_of_range 32 DS3231.blankDriver 2000
    ⟨2200, 1, 1, 0, 0, 0, 3⟩ (by decide)).2

end lr
